import Mathlib

/-!
# Shallow embedding of the OCaml Arrow C bridge (arrow_c_api.cc)

This file models the observable behaviour of the C-linkage bridge functions
in `c_api/wrapper/arrow_c_api.cc`.  Native Arrow objects (tables, chunked
arrays, record batches, readers) are modelled by explicit Lean data; the
wrapped Arrow library calls are modelled by their documented effect on that
data (a record batch is its row count, a chunked column is its list of
chunks, a table built from record batches has the concatenated rows, a
reader iterator is the list of batches it has yet to yield).  Failures that
the bridge surfaces through `caml_failwith` / `caml_invalid_argument` are
modelled by `Except String`.
-/

namespace ArrowCApi

/-! ## Arrow data types, chunks, columns and tables

`arrow::Type::type` ids for the six tags the bridge accepts, with the
numeric enum values of the Arrow C++ library
(BOOL = 1, INT64 = 9, DOUBLE = 12, STRING = 13, DATE32 = 16,
TIMESTAMP = 18). -/

/-- A chunk's Arrow data type: its `arrow::Type::type` enum id together
with the string produced by `DataType::ToString()`. -/
structure DataType where
  id : Nat
  display : String
deriving DecidableEq, Repr

/-- One contiguous chunk of a chunked column, as seen by
`table_chunked_column_`: only its data type matters there. -/
structure Chunk where
  dtype : DataType
deriving DecidableEq, Repr

/-- A named chunked column of a table. -/
structure Column where
  name : String
  chunks : List Chunk
deriving DecidableEq, Repr

/-- The column-structure facet of an `arrow::Table`, as dereferenced through
a `TablePtr` handle by the column-extraction entry points. -/
structure Table where
  columns : List Column
deriving DecidableEq, Repr

/-! ## `compression_of_int` (writers' codec selector) -/

/-- `arrow::Compression::type` constructors used by `compression_of_int`. -/
inductive Compression where
  | UNCOMPRESSED
  | SNAPPY
  | GZIP
  | BROTLI
  | ZSTD
  | LZ4
  | LZ4_FRAME
  | LZO
  | BZ2
deriving DecidableEq, Repr

/-- `compression_of_int`: starts from `UNCOMPRESSED` and overwrites it for
the recognized integer tags 1..8; every other tag keeps the default. -/
def compression_of_int (compression : Int) : Compression :=
  if compression = 1 then .SNAPPY
  else if compression = 2 then .GZIP
  else if compression = 3 then .BROTLI
  else if compression = 4 then .ZSTD
  else if compression = 5 then .LZ4
  else if compression = 6 then .LZ4_FRAME
  else if compression = 7 then .LZO
  else if compression = 8 then .BZ2
  else .UNCOMPRESSED

/-! ## Row-count accessor and handle free

A `TablePtr` handle is a heap-allocated `std::shared_ptr<arrow::Table>`;
the bridge passes it around as a possibly-null raw pointer.  We model a
possibly-null handle as an `Option` of a view on the shared table. -/

/-- The row-storage facet of an `arrow::Table` reached through a handle:
the shared backing storage (a list of abstract row values, shared between
aliasing handles) together with the window `[off, off + len)` this
particular table views.  `num_rows()` is the window length. -/
structure TableView where
  storage : List Nat
  off : Nat
  len : Nat
deriving DecidableEq, Repr

/-- `arrow::Table::num_rows()` on the model. -/
def TableView.numRows (t : TableView) : Nat := t.len

/-- The rows a view exposes: the `[off, off + len)` window of its storage. -/
def TableView.rows (t : TableView) : List Nat :=
  (t.storage.drop t.off).take t.len

/-- `table_num_rows`: returns the table's row count for a non-null handle
and `0` for a null handle. -/
def table_num_rows (table : Option TableView) : Int :=
  match table with
  | some t => (t.numRows : Int)
  | none => 0

/-- Per-table shared-ownership counts: reference count of each table id. -/
def RefCounts : Type := Nat → Nat

/-- A non-null `TablePtr` handle for the purpose of `free_table`: it holds
one shared reference to the table identified by `tableId`. -/
structure TPtr where
  tableId : Nat
deriving DecidableEq, Repr

/-- Effect of `delete table` on a `std::shared_ptr<arrow::Table>*` handle:
the handle's one shared reference to its table is dropped, so that table's
reference count decreases by one and no other count changes. -/
def deleteHandle (rc : RefCounts) (p : TPtr) : RefCounts :=
  fun t => if t = p.tableId then rc t - 1 else rc t

/-- `free_table`: deletes the handle when it is non-null, does nothing on a
null handle. -/
def free_table (table : Option TPtr) (rc : RefCounts) : RefCounts :=
  match table with
  | none => rc
  | some p => deleteHandle rc p

/-! ## Streaming Parquet reader (`ParquetReader` state machine)

A `ParquetReader` bundles a `parquet::arrow::FileReader` and a
`RecordBatchReader` iterator, each held through a resettable smart pointer
(`none` once reset).  The live iterator is modelled by the list of batches
(row counts) it has yet to yield; `ReadNext` yields them in order and then
reports end-of-stream with a null batch. -/

/-- The `ParquetReader` struct: `reader` is the file-reader reference,
`batch_reader` the batch iterator (its pending batches, as row counts).
Either field is `none` once its smart pointer has been reset. -/
structure ParquetReader where
  reader : Option Unit
  batch_reader : Option (List Nat)
deriving DecidableEq, Repr

/-- Outcome of one `parquet_reader_next` call. -/
inductive NextResult where
  /-- `caml_failwith` raised before touching the iterator. -/
  | closedError (msg : String)
  /-- `nullptr` returned: the iterator reported end-of-stream. -/
  | endOfStream
  /-- A fresh table handle wrapping the single batch that was read. -/
  | table (rows : Nat)
deriving DecidableEq, Repr

/-- `parquet_reader_next`: fails up front when `batch_reader` is null
(closed reader); otherwise pulls one batch from the iterator, returning
`nullptr` at exhaustion or a new single-batch table handle.  Returns the
result together with the reader state after the call. -/
def parquet_reader_next (pr : ParquetReader) : NextResult × ParquetReader :=
  match pr.batch_reader with
  | none => (.closedError "reader has already been closed", pr)
  | some [] => (.endOfStream, pr)
  | some (b :: bs) => (.table b, { pr with batch_reader := some bs })

/-- `parquet_reader_close`: resets both the `batch_reader` and `reader`
references. -/
def parquet_reader_close (_pr : ParquetReader) : ParquetReader :=
  { reader := none, batch_reader := none }

/-! ## Typed chunked column extraction (`table_chunked_column_` et al.)

The bridge call writes the array descriptors into a freshly allocated
buffer and the chunk count into the out-parameter `*nchunks`; we model the
call as a pure function returning the `Except` outcome (the exported chunk
descriptors on success) paired with the value of `*nchunks` after the call,
given its value before the call. -/

/-- The `dt` tag dispatch at the top of `table_chunked_column_`: for the
six recognized tags, the expected `arrow::Type` id and the string used in
error messages; `none` for every other tag (the "unknown datatype"
failure). -/
def expectedOfDt (dt : Int) : Option (Nat × String) :=
  if dt = 0 then some (9, "int64")
  else if dt = 1 then some (12, "float64")
  else if dt = 2 then some (13, "utf8")
  else if dt = 3 then some (16, "date32")
  else if dt = 4 then some (18, "timestamp")
  else if dt = 5 then some (1, "bool")
  else none

/-- The message of the exception thrown on a chunk whose type id differs
from the expected one: it names the expected type (string and id) and the
actual type (its `ToString()`). -/
def typeErrMsg (estr : String) (eid : Nat) (actual : String) : String :=
  "expected type with " ++ estr ++ " (id " ++ toString eid ++ ") got "
    ++ actual

/-- The per-chunk loop of `table_chunked_column_`: exports each chunk in
order, but throws at the first chunk whose type id differs from the
expected id, with a message naming both types. -/
def checkChunks (eid : Nat) (estr : String) :
    List Chunk → Except String (List Chunk)
  | [] => .ok []
  | c :: cs =>
    if c.dtype.id = eid then
      (checkChunks eid estr cs).map (c :: ·)
    else
      .error (typeErrMsg estr eid c.dtype.display)

/-- `arrow::Table::GetColumnByName`: the first column with that name, or
null when there is none. -/
def getColumnByName (t : Table) (name : String) : Option Column :=
  t.columns.find? (fun c => c.name == name)

/-- The column lookup of `table_chunked_column_`: by name when
`column_name` is non-null, otherwise by index (`Table::column`). -/
def resolveColumn (t : Table) (column_name : Option String)
    (column_idx : Nat) : Option Column :=
  match column_name with
  | some nm => getColumnByName t nm
  | none => t.columns[column_idx]?

/-- Result of a column-extraction call: the failure or the exported chunk
descriptors, together with the caller-visible value of `*nchunks` after
the call. -/
structure ColumnCallResult where
  result : Except String (List Chunk)
  nchunksOut : Int
deriving Repr

/-- `table_chunked_column_`: dispatches on the type tag, resolves the
column, then writes `*nchunks` and runs the per-chunk type check / export
loop.  Note `*nchunks` is written before the loop, so it is already set to
the chunk count when a chunk type mismatch aborts the call. -/
def table_chunked_column_ (t : Table) (column_name : Option String)
    (column_idx : Nat) (nchunks0 : Int) (dt : Int) : ColumnCallResult :=
  match expectedOfDt dt with
  | none => ⟨.error ("unknown datatype " ++ toString dt), nchunks0⟩
  | some (eid, estr) =>
    match resolveColumn t column_name column_idx with
    | none =>
      match column_name with
      | some nm => ⟨.error ("cannot find column " ++ nm), nchunks0⟩
      | none => ⟨.error "error finding column", nchunks0⟩
    | some col =>
      ⟨checkChunks eid estr col.chunks, (col.chunks.length : Int)⟩

/-- `check_column_idx`: rejects an index outside `[0, n_cols)` with a
message carrying the offending index and the column count. -/
def check_column_idx (column_idx n_cols : Int) : Except String Unit :=
  if column_idx < 0 ∨ column_idx ≥ n_cols then
    .error ("invalid column index " ++ toString column_idx ++ " (ncols: "
      ++ toString n_cols ++ ")")
  else .ok ()

/-- `table_chunked_column`: bounds-checks the index, then extracts by
index. -/
def table_chunked_column (t : Table) (column_idx : Int) (nchunks0 : Int)
    (dt : Int) : ColumnCallResult :=
  match check_column_idx column_idx (t.columns.length : Int) with
  | .error e => ⟨.error e, nchunks0⟩
  | .ok _ => table_chunked_column_ t none column_idx.toNat nchunks0 dt

/-- `table_chunked_column_by_name`: extracts by name (the index argument
passed along is 0 and unused). -/
def table_chunked_column_by_name (t : Table) (col_name : String)
    (nchunks0 : Int) (dt : Int) : ColumnCallResult :=
  table_chunked_column_ t (some col_name) 0 nchunks0 dt

/-- The first chunk of the list whose type id differs from `eid`, if
any. -/
def firstMismatch (eid : Nat) : List Chunk → Option Chunk
  | [] => none
  | c :: cs => if c.dtype.id = eid then firstMismatch eid cs else some c

/-! ## Bulk Parquet read with a row limit (`parquet_read_table`)

In the `only_first >= 0` branch the reader walks the row groups in order;
for each group it drains that group's record-batch reader while rows are
still needed.  A record batch is modelled by its row count, a row group by
the list of batches its reader yields, the file by its list of row
groups. -/

/-- The inner `while (only_first > 0)` loop over one row group's batches:
whole batches are kept while more rows than the batch remain; the final
partially-needed batch is sliced (`Slice(0, only_first)`) to the exact
remaining count.  Returns the pushed batch row counts and the remaining
limit after the group. -/
def readGroupBatches : Int → List Nat → List Nat × Int
  | k, [] => ([], k)
  | k, b :: bs =>
    if k ≤ 0 then ([], k)
    else if k ≤ (b : Int) then ([k.toNat], 0)
    else
      let p := readGroupBatches (k - (b : Int)) bs
      (b :: p.1, p.2)

/-- The row-group `for` loop: each group in turn is drained by the inner
loop; the loop breaks as soon as the remaining limit is ≤ 0, never opening
later row groups. -/
def readGroupsLimited : Int → List (List Nat) → List Nat
  | _, [] => []
  | k, g :: gs =>
    let p := readGroupBatches k g
    if p.2 ≤ 0 then p.1
    else p.1 ++ readGroupsLimited p.2 gs

/-- The file's total row count: the sum of every batch of every row
group. -/
def totalRows (groups : List (List Nat)) : Nat :=
  (groups.map List.sum).sum

/-- `arrow::Table::FromRecordBatches(batches)` (the schema-less overload)
as reached through `ok_exn`: on an empty batch vector there is no schema
to infer and it returns an Invalid status, which `ok_exn` throws with the
status text; on a non-empty vector the table concatenates the batches, so
its row count is the sum of theirs. -/
def tableFromRecordBatches (batches : List Nat) : Except String Nat :=
  match batches with
  | [] => .error "Invalid: Must pass at least one record batch"
  | _ => .ok batches.sum

/-- `parquet_read_table` in the `only_first >= 0` branch: the row-group
loop collects batches, then the table is built by
`Table::FromRecordBatches` on the collected vector — failing when that
vector is empty (in particular whenever `only_first = 0`).  The result is
the failure or the returned table's row count. -/
def parquet_read_table_limited (groups : List (List Nat))
    (only_first : Int) : Except String Nat :=
  tableFromRecordBatches (readGroupsLimited only_first groups)

/-! ## `table_slice` -/

/-- `arrow::Table::Slice(offset, length)` on the view model: the result
shares the same backing storage; the offset is clamped to the source's row
count and the length to the rows remaining past the offset. -/
def sliceView (t : TableView) (o l : Nat) : TableView :=
  { storage := t.storage
    off := t.off + min o t.len
    len := min l (t.len - min o t.len) }

/-- `table_slice`: rejects a negative offset then a negative length with
`caml_invalid_argument`; otherwise returns a fresh handle on the sliced
view of the same storage. -/
def table_slice (t : TableView) (offset length : Int) :
    Except String TableView :=
  if offset < 0 then .error "negative offset"
  else if length < 0 then .error "negative length"
  else .ok (sliceView t offset.toNat length.toNat)

/-! ## File writers as operation traces

Each writer body is modelled by the sequence of Arrow-library operations
it performs, with the arguments each operation receives.  Record batch and
schema inputs are abstract ids. -/

/-- One Arrow-library operation performed by a writer body. -/
inductive WriteStep where
  | openOutput (filename : String)
  | importRecordBatch (array schema : Nat)
  | tableFromBatches
  | ipcNewFileWriter
  | ipcWriteTable
  | parquetWriteTable (chunk_size : Int) (compression : Compression)
      (int96timestamps : Bool)
  | featherWriteTable (chunksize : Int) (compression : Compression)
deriving DecidableEq, Repr

/-- `parquet_write_file`: opens the output stream, imports the record
batch, builds a table from it, and writes it with the given chunk size,
the selected codec, and deprecated int96 timestamps enabled. -/
def parquet_write_file (filename : String) (array schema : Nat)
    (chunk_size : Int) (compression : Int) : List WriteStep :=
  [.openOutput filename, .importRecordBatch array schema,
    .tableFromBatches,
    .parquetWriteTable chunk_size (compression_of_int compression) true]

/-- `arrow_write_file`: opens the output stream, imports the record batch,
builds a table from it, creates an IPC file writer on the table's schema
and writes the whole table.  The `chunk_size` parameter appears in the
signature but no operation in the body consults it. -/
def arrow_write_file (filename : String) (array schema : Nat)
    (_chunk_size : Int) : List WriteStep :=
  [.openOutput filename, .importRecordBatch array schema,
    .tableFromBatches, .ipcNewFileWriter, .ipcWriteTable]

end ArrowCApi

namespace ArrowCApi

/-! ## Theorems -/

/-- `checkChunks` succeeds exactly on an all-matching chunk list, and then
returns the chunks themselves. -/
theorem checkChunks_eq_ok (eid : Nat) (estr : String) (cs : List Chunk) :
    (∀ c ∈ cs, c.dtype.id = eid) → checkChunks eid estr cs = .ok cs := by
  intro h
  induction cs with
  | nil => rfl
  | cons c cs ih =>
    have hc : c.dtype.id = eid := h c (List.mem_cons_self c cs)
    have ih' := ih (fun x hx => h x (List.mem_cons_of_mem c hx))
    simp [checkChunks, hc, ih', Except.map]

/-- `checkChunks` fails at the first mismatched chunk with the message
naming both types. -/
theorem checkChunks_eq_error (eid : Nat) (estr : String) (cs : List Chunk)
    (c : Chunk) :
    firstMismatch eid cs = some c →
      checkChunks eid estr cs = .error (typeErrMsg estr eid c.dtype.display) := by
  intro h
  induction cs with
  | nil => simp [firstMismatch] at h
  | cons d ds ih =>
    by_cases hd : d.dtype.id = eid
    · have h' : firstMismatch eid ds = some c := by
        simpa [firstMismatch, hd] using h
      simp [checkChunks, hd, ih h', Except.map]
    · have hc : d = c := by
        simpa [firstMismatch, hd] using h
      subst hc
      simp [checkChunks, hd]

/-- `firstMismatch` finds a mismatched member of the list. -/
theorem firstMismatch_mem (eid : Nat) (cs : List Chunk) (c : Chunk) :
    firstMismatch eid cs = some c → c ∈ cs ∧ c.dtype.id ≠ eid := by
  intro h
  induction cs with
  | nil => simp [firstMismatch] at h
  | cons d ds ih =>
    by_cases hd : d.dtype.id = eid
    · have h' : firstMismatch eid ds = some c := by
        simpa [firstMismatch, hd] using h
      exact ⟨List.mem_cons_of_mem d (ih h').1, (ih h').2⟩
    · have hc : d = c := by
        simpa [firstMismatch, hd] using h
      subst hc
      exact ⟨List.mem_cons_self d ds, hd⟩

/-- When some chunk mismatches, `firstMismatch` finds one. -/
theorem firstMismatch_of_exists (eid : Nat) (cs : List Chunk) :
    (∃ c ∈ cs, c.dtype.id ≠ eid) →
      ∃ c, firstMismatch eid cs = some c := by
  intro h
  induction cs with
  | nil => simp at h
  | cons d ds ih =>
    by_cases hd : d.dtype.id = eid
    · rcases h with ⟨c, hc, hne⟩
      rcases List.mem_cons.1 hc with rfl | hmem
      · exact absurd hd hne
      · rcases ih ⟨c, hmem, hne⟩ with ⟨c', hc'⟩
        exact ⟨c', by simpa [firstMismatch, hd] using hc'⟩
    · exact ⟨d, by simp [firstMismatch, hd]⟩

/-- The outcome of `table_chunked_column_` once the tag is recognized and
the column resolved is the per-chunk check, and `*nchunks` has been set to
the chunk count. -/
theorem table_chunked_column_eq_check
    (t : Table) (nm? : Option String) (idx : Nat) (n0 dt : Int)
    (eid : Nat) (estr : String) (col : Column)
    (hdt : expectedOfDt dt = some (eid, estr))
    (hcol : resolveColumn t nm? idx = some col) :
    table_chunked_column_ t nm? idx n0 dt =
      ⟨checkChunks eid estr col.chunks, (col.chunks.length : Int)⟩ := by
  simp [table_chunked_column_, hdt, hcol]

/-- C2: with a recognized expected-type tag and a column resolved by index
or by name (`resolveColumn` is exactly the lookup both entry points
perform), extraction succeeds — returning all chunk descriptors — if and
only if every chunk's type id equals the expected id; a mismatch at any
chunk position (not only the first) fails the whole call, with a failure
message naming both the expected type and a mismatched chunk's actual
type. -/
theorem table_chunked_column_type_check
    (t : Table) (nm? : Option String) (idx : Nat) (n0 dt : Int)
    (eid : Nat) (estr : String) (col : Column)
    (hdt : expectedOfDt dt = some (eid, estr))
    (hcol : resolveColumn t nm? idx = some col) :
    ((table_chunked_column_ t nm? idx n0 dt).result = .ok col.chunks ↔
      ∀ c ∈ col.chunks, c.dtype.id = eid) ∧
    ((∃ c ∈ col.chunks, c.dtype.id ≠ eid) →
      ∃ c ∈ col.chunks, c.dtype.id ≠ eid ∧
        (table_chunked_column_ t nm? idx n0 dt).result =
          .error (typeErrMsg estr eid c.dtype.display)) := by
  have hres := table_chunked_column_eq_check t nm? idx n0 dt eid estr col
    hdt hcol
  constructor
  · constructor
    · intro hok
      intro c hc
      by_contra hne
      obtain ⟨c', hfm⟩ := firstMismatch_of_exists eid col.chunks ⟨c, hc, hne⟩
      rw [hres] at hok
      simp only [checkChunks_eq_error eid estr col.chunks c' hfm] at hok
      exact Except.noConfusion hok
    · intro hall
      rw [hres]
      simpa using checkChunks_eq_ok eid estr col.chunks hall
  · intro hex
    obtain ⟨c', hfm⟩ := firstMismatch_of_exists eid col.chunks hex
    obtain ⟨hmem, hne⟩ := firstMismatch_mem eid col.chunks c' hfm
    refine ⟨c', hmem, hne, ?_⟩
    rw [hres]
    simpa using checkChunks_eq_error eid estr col.chunks c' hfm

/-- Witness for C2: a column whose second (later) chunk is a string chunk
while int64 is expected; the theorem applied there yields the failing
call with the message naming both types. -/
theorem table_chunked_column_type_check_witness :
    ∃ c ∈ [Chunk.mk ⟨9, "int64"⟩, Chunk.mk ⟨13, "string"⟩],
      c.dtype.id ≠ 9 ∧
        (table_chunked_column_
            ⟨[⟨"x", [Chunk.mk ⟨9, "int64"⟩, Chunk.mk ⟨13, "string"⟩]⟩]⟩
            (some "x") 0 0 0).result =
          .error (typeErrMsg "int64" 9 c.dtype.display) :=
  (table_chunked_column_type_check
      ⟨[⟨"x", [Chunk.mk ⟨9, "int64"⟩, Chunk.mk ⟨13, "string"⟩]⟩]⟩
      (some "x") 0 0 0 9 "int64"
      ⟨"x", [Chunk.mk ⟨9, "int64"⟩, Chunk.mk ⟨13, "string"⟩]⟩
      (by decide) (by decide)).2 (by decide)

/-- C4 counterexample: a failing call CAN modify the caller-visible
`*nchunks`.  With `*nchunks` initially -7, extracting column 0 of a
one-column table whose second chunk is a string chunk as int64 fails, yet
leaves `*nchunks` set to 2, the column's chunk count. -/
theorem table_chunked_column_nchunks_modified :
    (table_chunked_column_
        ⟨[⟨"x", [Chunk.mk ⟨9, "int64"⟩, Chunk.mk ⟨13, "string"⟩]⟩]⟩
        none 0 (-7) 0).result.isOk = false ∧
    (table_chunked_column_
        ⟨[⟨"x", [Chunk.mk ⟨9, "int64"⟩, Chunk.mk ⟨13, "string"⟩]⟩]⟩
        none 0 (-7) 0).nchunksOut = 2 ∧
    (2 : Int) ≠ -7 := by
  refine ⟨?_, by decide, by decide⟩
  decide

/-- C4 (amended): a failing extraction returns no array descriptors (the
result carries no `.ok` payload), and `*nchunks` is left unmodified by
unknown-tag and column-lookup failures; but when the failure is a chunk
type mismatch, `*nchunks` has already been set to the column's chunk
count before the per-chunk check loop runs. -/
theorem table_chunked_column_failure_outputs
    (t : Table) (nm? : Option String) (idx : Nat) (n0 dt : Int) :
    (expectedOfDt dt = none →
      (table_chunked_column_ t nm? idx n0 dt).result.isOk = false ∧
      (table_chunked_column_ t nm? idx n0 dt).nchunksOut = n0) ∧
    (∀ eid estr, expectedOfDt dt = some (eid, estr) →
      (resolveColumn t nm? idx = none →
        (table_chunked_column_ t nm? idx n0 dt).result.isOk = false ∧
        (table_chunked_column_ t nm? idx n0 dt).nchunksOut = n0) ∧
      (∀ col, resolveColumn t nm? idx = some col →
        (table_chunked_column_ t nm? idx n0 dt).nchunksOut =
          (col.chunks.length : Int) ∧
        ((∃ c ∈ col.chunks, c.dtype.id ≠ eid) →
          (table_chunked_column_ t nm? idx n0 dt).result.isOk = false))) := by
  refine ⟨?_, ?_⟩
  · intro hdt
    cases hnm : nm? <;> simp [table_chunked_column_, hdt, Except.isOk, Except.toBool]
  · intro eid estr hdt
    refine ⟨?_, ?_⟩
    · intro hcol
      cases hnm : nm? <;> subst hnm <;>
        simp [table_chunked_column_, hdt, hcol, Except.isOk, Except.toBool]
    · intro col hcol
      have hres := table_chunked_column_eq_check t nm? idx n0 dt eid estr
        col hdt hcol
      refine ⟨by rw [hres], ?_⟩
      intro hex
      obtain ⟨c', hfm⟩ := firstMismatch_of_exists eid col.chunks hex
      rw [hres]
      simp [checkChunks_eq_error eid estr col.chunks c' hfm, Except.isOk, Except.toBool]

/-- Witness for C4's amended theorem: at the counterexample's input, the
mismatch failure reports `*nchunks` equal to the chunk count 2. -/
theorem table_chunked_column_failure_outputs_witness :
    (table_chunked_column_
        ⟨[⟨"x", [Chunk.mk ⟨9, "int64"⟩, Chunk.mk ⟨13, "string"⟩]⟩]⟩
        none 0 (-7) 0).nchunksOut = (2 : Int) :=
  ((table_chunked_column_failure_outputs
      ⟨[⟨"x", [Chunk.mk ⟨9, "int64"⟩, Chunk.mk ⟨13, "string"⟩]⟩]⟩
      none 0 (-7) 0).2 9 "int64" (by decide)).2
    ⟨"x", [Chunk.mk ⟨9, "int64"⟩, Chunk.mk ⟨13, "string"⟩]⟩
    (by decide) |>.1

/-- C5: the writers' codec mapping sends 1 to Snappy, 2 to Gzip, 3 to
Brotli, 4 to Zstd, 5 to LZ4, 6 to LZ4-frame, 7 to LZO, 8 to BZ2, and every
other integer tag (0, negatives, and tags above 8) to the uncompressed
codec; the mapping is total, so no tag fails. -/
theorem compression_of_int_spec :
    compression_of_int 1 = .SNAPPY ∧
    compression_of_int 2 = .GZIP ∧
    compression_of_int 3 = .BROTLI ∧
    compression_of_int 4 = .ZSTD ∧
    compression_of_int 5 = .LZ4 ∧
    compression_of_int 6 = .LZ4_FRAME ∧
    compression_of_int 7 = .LZO ∧
    compression_of_int 8 = .BZ2 ∧
    ∀ c : Int, (c < 1 ∨ 8 < c) → compression_of_int c = .UNCOMPRESSED := by
  refine ⟨rfl, rfl, rfl, rfl, rfl, rfl, rfl, rfl, ?_⟩
  intro c hc
  unfold compression_of_int
  rcases hc with hc | hc <;>
    · repeat rw [if_neg (by omega)]

/-- Witness for C5: the theorem applied at the concrete out-of-range
tag 42. -/
theorem compression_of_int_spec_witness :
    compression_of_int 42 = .UNCOMPRESSED :=
  compression_of_int_spec.2.2.2.2.2.2.2.2 42 (Or.inr (by decide))

/-- C8: `table_num_rows` is total on its handle argument: a null handle
yields 0, and a non-null handle yields the underlying table's row count. -/
theorem table_num_rows_total :
    table_num_rows none = 0 ∧
    ∀ t : TableView, table_num_rows (some t) = (t.numRows : Int) := by
  exact ⟨rfl, fun _ => rfl⟩

/-- C10: `free_table` is a no-op on a null handle, and on a non-null handle
it decrements exactly the referenced table's shared count, leaving every
other table's count unchanged. -/
theorem free_table_spec :
    (∀ rc : RefCounts, free_table none rc = rc) ∧
    (∀ (p : TPtr) (rc : RefCounts),
      free_table (some p) rc p.tableId = rc p.tableId - 1) ∧
    (∀ (p : TPtr) (rc : RefCounts) (t : Nat), t ≠ p.tableId →
      free_table (some p) rc t = rc t) := by
  refine ⟨fun _ => rfl, fun p rc => ?_, fun p rc t ht => ?_⟩
  · simp [free_table, deleteHandle]
  · simp [free_table, deleteHandle, ht]

/-- Witness for C10: the theorem applied at a concrete handle and count
map; the handle for table 3 leaves table 0's count untouched. -/
theorem free_table_spec_witness :
    free_table (some ⟨3⟩) (fun _ => 5) 0 = 5 :=
  free_table_spec.2.2 ⟨3⟩ (fun _ => 5) 0 (by decide)

/-- C3: once `parquet_reader_close` has run, `parquet_reader_next` fails
with the explicit "reader has already been closed" error, raised before the
read path: the closed state is returned unchanged (the released iterator is
never touched, hence never advanced). -/
theorem parquet_reader_next_after_close :
    ∀ pr : ParquetReader,
      parquet_reader_next (parquet_reader_close pr) =
        (.closedError "reader has already been closed",
          parquet_reader_close pr) := by
  intro pr
  rfl

/-- C7: `parquet_reader_close` is idempotent: a second close reproduces
exactly the state after the first, and any number of closes leaves both the
iterator and reader references released; close itself has no failure
outcome. -/
theorem parquet_reader_close_idempotent :
    ∀ pr : ParquetReader,
      parquet_reader_close (parquet_reader_close pr) =
        parquet_reader_close pr ∧
      (parquet_reader_close pr).batch_reader = none ∧
      (parquet_reader_close pr).reader = none := by
  intro pr
  exact ⟨rfl, rfl, rfl⟩

/-- Inner-loop accounting: with a non-negative remaining limit `k`, one
row group contributes exactly `min k (its rows)` rows, and the limit left
over is `max (k - its rows) 0`. -/
theorem readGroupBatches_spec (g : List Nat) :
    ∀ k : Int, 0 ≤ k →
      ((readGroupBatches k g).1.sum : Int) = min k (g.sum : Int) ∧
      (readGroupBatches k g).2 = max (k - (g.sum : Int)) 0 := by
  induction g with
  | nil =>
    intro k hk
    simp only [readGroupBatches, List.sum_nil]
    constructor <;> [simp; skip] <;> omega
  | cons b bs ih =>
    intro k hk
    simp only [readGroupBatches, List.sum_cons]
    split_ifs with h0 hb
    · simp only [List.sum_nil]
      omega
    · simp only [List.sum_cons, List.sum_nil]
      omega
    · obtain ⟨ih1, ih2⟩ := ih (k - (b : Int)) (by omega)
      simp only [List.sum_cons]
      omega

/-- The rows the row-group loop collects total exactly
`min only_first total_rows`, for any non-negative limit. -/
theorem readGroupsLimited_sum (groups : List (List Nat)) :
    ∀ only_first : Int, 0 ≤ only_first →
      ((readGroupsLimited only_first groups).sum : Int) =
        min only_first (totalRows groups : Int) := by
  induction groups with
  | nil =>
    intro k hk
    simp only [readGroupsLimited, totalRows, List.map_nil, List.sum_nil]
    simp
    omega
  | cons g gs ih =>
    intro k hk
    obtain ⟨h1, h2⟩ := readGroupBatches_spec g k hk
    simp only [readGroupsLimited, totalRows, List.map_cons,
      List.sum_cons] at *
    split_ifs with hstop
    · omega
    · have hge : (0 : Int) ≤ (readGroupBatches k g).2 := by omega
      have ih' := ih (readGroupBatches k g).2 hge
      simp only [List.sum_append]
      omega

/-- With a non-positive remaining limit the inner batch loop reads
nothing and leaves the limit unchanged. -/
theorem readGroupBatches_nonpos (g : List Nat) (k : Int) (hk : k ≤ 0) :
    readGroupBatches k g = ([], k) := by
  cases g with
  | nil => rfl
  | cons b bs => simp [readGroupBatches, hk]

/-- With a non-positive limit (in particular `only_first = 0`) the
row-group loop collects no batch at all. -/
theorem readGroupsLimited_nonpos (groups : List (List Nat)) (k : Int)
    (hk : k ≤ 0) : readGroupsLimited k groups = [] := by
  cases groups with
  | nil => rfl
  | cons g gs =>
    simp [readGroupsLimited, readGroupBatches_nonpos g k hk, hk]

/-- When every row group yields no batches, the loop collects no batch
for any limit. -/
theorem readGroupsLimited_all_nil (groups : List (List Nat)) :
    (∀ g ∈ groups, g = []) →
      ∀ k : Int, readGroupsLimited k groups = [] := by
  induction groups with
  | nil => intro _ k; rfl
  | cons g gs ih =>
    intro h k
    have hg : g = [] := h g (List.mem_cons_self g gs)
    subst hg
    have ih' := ih (fun x hx => h x (List.mem_cons_of_mem _ hx))
    simp only [readGroupsLimited, readGroupBatches]
    split_ifs with hk
    · rfl
    · simpa using ih' k

/-- With a positive remaining limit, a non-empty row group always
contributes at least one batch (whole or sliced). -/
theorem readGroupBatches_pos_ne_nil (b : Nat) (bs : List Nat) (k : Int)
    (hk : 0 < k) : (readGroupBatches k (b :: bs)).1 ≠ [] := by
  simp only [readGroupBatches]
  rw [if_neg (by omega)]
  split_ifs <;> simp

/-- With a positive limit and at least one row group yielding a batch,
the loop collects at least one batch. -/
theorem readGroupsLimited_ne_nil (groups : List (List Nat)) (k : Int)
    (hk : 0 < k) :
    (∃ g ∈ groups, g ≠ []) → readGroupsLimited k groups ≠ [] := by
  induction groups with
  | nil => intro h; simp at h
  | cons g gs ih =>
    intro h
    cases g with
    | nil =>
      have hex : ∃ g' ∈ gs, g' ≠ [] := by
        rcases h with ⟨g', hg', hne⟩
        rcases List.mem_cons.1 hg' with rfl | hmem
        · exact absurd rfl hne
        · exact ⟨g', hmem, hne⟩
      have hgs := ih hex
      simp only [readGroupsLimited, readGroupBatches]
      rw [if_neg (by omega)]
      simpa using hgs
    | cons b bs =>
      have h1 := readGroupBatches_pos_ne_nil b bs k hk
      simp only [readGroupsLimited]
      split_ifs with h2
      · exact h1
      · intro hcontra
        exact h1 (List.append_eq_nil.mp hcontra).1

/-- C1 counterexample: the claim as stated fails at `only_first = 0`.  On
a file of two row groups with batches of 3, 4 and 5 rows, a read with
limit 0 collects no batch, so `Table::FromRecordBatches` fails with
Arrow's Invalid error and no 0-row table is ever returned. -/
theorem parquet_read_table_only_first_zero_fails :
    parquet_read_table_limited [[3, 4], [5]] 0 =
      .error "Invalid: Must pass at least one record batch" ∧
    (parquet_read_table_limited [[3, 4], [5]] 0).isOk = false := by
  exact ⟨rfl, rfl⟩

/-- C1 (amended): a bulk read whose limit collects no batch — a zero
limit, or a file none of whose row groups yields a batch — fails with
Arrow's "Must pass at least one record batch" Invalid error; for every
positive limit on a file with at least one batch, the returned table has
exactly `min only_first total_rows` rows, whatever the alignment of the
limit with row-group or batch boundaries (the final partially-needed
batch is sliced to the exact remainder). -/
theorem parquet_read_table_only_first_amended (groups : List (List Nat)) :
    ∀ only_first : Int, 0 ≤ only_first →
      ((only_first = 0 ∨ ∀ g ∈ groups, g = []) →
        parquet_read_table_limited groups only_first =
          .error "Invalid: Must pass at least one record batch") ∧
      (0 < only_first → (∃ g ∈ groups, g ≠ []) →
        parquet_read_table_limited groups only_first =
          .ok (min only_first (totalRows groups : Int)).toNat) := by
  intro k hk
  constructor
  · intro h
    have hnil : readGroupsLimited k groups = [] := by
      rcases h with rfl | hall
      · exact readGroupsLimited_nonpos groups 0 le_rfl
      · exact readGroupsLimited_all_nil groups hall k
    rw [parquet_read_table_limited, hnil]
    rfl
  · intro hpos hex
    have hne := readGroupsLimited_ne_nil groups k hpos hex
    have hsum := readGroupsLimited_sum groups k hk
    rw [parquet_read_table_limited]
    cases hcase : readGroupsLimited k groups with
    | nil => exact absurd hcase hne
    | cons b bs =>
      rw [hcase] at hsum
      simp only [tableFromRecordBatches]
      congr 1
      omega

/-- Witness for C1's amended theorem: the two-row-group file with batches
of 3, 4 and 5 rows read with limit 6 — a limit falling strictly inside
the 4-row batch — returns exactly min 6 12 = 6 rows. -/
theorem parquet_read_table_only_first_amended_witness :
    parquet_read_table_limited [[3, 4], [5]] 6 =
      .ok (min (6 : Int) (totalRows [[3, 4], [5]] : Int)).toNat :=
  (parquet_read_table_only_first_amended [[3, 4], [5]] 6 (by decide)).2
    (by decide) ⟨[3, 4], by decide, by decide⟩

/-- C6: `table_slice` fails exactly when the offset or the length is
negative, and on an in-range non-negative offset/length returns a fresh
handle whose row count equals the requested length, which shares the
source's backing storage, and whose rows are the corresponding sub-range
of the source's rows. -/
theorem table_slice_spec (t : TableView) (offset length : Int) :
    ((∃ e, table_slice t offset length = .error e) ↔
      offset < 0 ∨ length < 0) ∧
    (0 ≤ offset → 0 ≤ length →
      offset.toNat + length.toNat ≤ t.numRows →
      ∃ t', table_slice t offset length = .ok t' ∧
        t'.numRows = length.toNat ∧
        t'.storage = t.storage ∧
        t'.rows = (t.rows.drop offset.toNat).take length.toNat) := by
  constructor
  · constructor
    · intro ⟨e, he⟩
      by_contra hneg
      push_neg at hneg
      simp [table_slice, not_lt.2 hneg.1, not_lt.2 hneg.2] at he
    · intro h
      rcases h with h | h
      · exact ⟨"negative offset", by simp [table_slice, h]⟩
      · rcases lt_or_le offset 0 with ho | ho
        · exact ⟨"negative offset", by simp [table_slice, ho]⟩
        · exact ⟨"negative length", by simp [table_slice, not_lt.2 ho, h]⟩
  · intro ho hl hrange
    refine ⟨sliceView t offset.toNat length.toNat, ?_, ?_, rfl, ?_⟩
    · simp [table_slice, not_lt.2 ho, not_lt.2 hl]
    · simp only [TableView.numRows, sliceView] at *
      omega
    · simp only [TableView.numRows] at hrange
      simp only [TableView.rows, sliceView]
      rw [List.drop_take, List.drop_drop, List.take_take]
      have h1 : t.off + min offset.toNat t.len = t.off + offset.toNat := by
        omega
      have h2 : min length.toNat (t.len - min offset.toNat t.len) =
          min length.toNat (t.len - offset.toNat) := by
        omega
      rw [h1, h2]

/-- Witness for C6: slicing a 5-row view at offset 1 with length 2
succeeds with a 2-row view on the same storage whose rows are the
corresponding sub-range. -/
theorem table_slice_spec_witness :
    ∃ t', table_slice ⟨[10, 20, 30, 40, 50], 0, 5⟩ 1 2 = .ok t' ∧
      t'.numRows = (2 : Int).toNat ∧
      t'.storage = (⟨[10, 20, 30, 40, 50], 0, 5⟩ : TableView).storage ∧
      t'.rows = (((⟨[10, 20, 30, 40, 50], 0, 5⟩ :
          TableView).rows.drop (1 : Int).toNat).take (2 : Int).toNat) :=
  (table_slice_spec ⟨[10, 20, 30, 40, 50], 0, 5⟩ 1 2).2
    (by decide) (by decide) (by decide)

/-- C9: `arrow_write_file` performs the same operations, and hence
produces the same output, for any two values of its `chunk_size`
parameter: the parameter is never consulted. -/
theorem arrow_write_file_ignores_chunk_size :
    ∀ (filename : String) (array schema : Nat) (a b : Int),
      arrow_write_file filename array schema a =
        arrow_write_file filename array schema b := by
  intro filename array schema a b
  rfl

end ArrowCApi
